import Mathlib

/-!
Verification of the adaptive confidence-tracking and topic-selection engine.

The Python sources are shallowly embedded: float arithmetic is modelled by
exact rational arithmetic over ℚ, dictionaries by association lists whose
order models Python dict insertion order, and fallible operations by Option.

Embedded source functions:
- `ProgressService.update_student_progress` (progress_service.py, lines 34-78):
  the lifetime-accuracy confidence update over a stored record, where the
  absence of a stored record is modelled by `Option.none`.
- `update_confidence_score` (main_quiz.py, lines 173-192) and the inline
  per-question update of the quiz submit handler (app_hf.py, lines 205-210):
  the per-question plus or minus 0.1 mode.
- `get_next_quiz_topic` (2.py, lines 98-106 and main_quiz.py, lines 194-204):
  Python min over the confidence map, which keeps the first key whose value
  is strictly smaller than the current best, hence returns the earliest
  minimal key in iteration order.
- `load_student_progress` (main_quiz.py, lines 127-161 and 2.py, lines 11-27).
- the answer-scoring comparisons of app_hf.py (line 201, startswith) and
  student_interface.py (lines 152-161, first-character equality).
-/

/-- One row of the student_progress table (models.StudentProgress), restricted
to the fields the confidence policy reads and writes. -/
structure StudentProgress where
  confidence_score : ℚ
  attempts : ℕ
  total_questions : ℕ
  correct_answers : ℕ
  deriving DecidableEq

/-- Python max(0.0, min(1.0, x)). -/
def clamp01 (x : ℚ) : ℚ := max 0 (min 1 x)

/-- The record a prior state denotes: a stored row, or the default state of a
topic never attempted (score 0.5, zero attempts, zero counters). -/
def priorRecord : Option StudentProgress → StudentProgress
  | none => ⟨1/2, 0, 0, 0⟩
  | some r => r

/-- Rounding to three decimal places, as the specification displays scores. -/
def round3 (q : ℚ) : ℤ := ⌊q * 1000 + 1/2⌋

/-- ProgressService.update_student_progress (progress_service.py, lines 34-78).
With an existing row: counters accumulate, accuracy is lifetime correct over
lifetime total (guarded to 0.5 when the lifetime total is zero), and the score
moves by (accuracy - 0.5) * 0.1, clamped to [0, 1].  With no row: a fresh row
is inserted with score clamp(0.5 + (accuracy - 0.5) * 0.2) and attempts 1. -/
def update_student_progress (existing : Option StudentProgress)
    (correct_answers total_questions : ℕ) : StudentProgress :=
  match existing with
  | some ex =>
      let new_attempts := ex.attempts + 1
      let new_total_questions := ex.total_questions + total_questions
      let new_correct_answers := ex.correct_answers + correct_answers
      let accuracy : ℚ :=
        if 0 < new_total_questions then
          (new_correct_answers : ℚ) / (new_total_questions : ℚ) else 1/2
      let confidence_adjustment := (accuracy - 1/2) * (1/10)
      { confidence_score := clamp01 (ex.confidence_score + confidence_adjustment)
        attempts := new_attempts
        total_questions := new_total_questions
        correct_answers := new_correct_answers }
  | none =>
      let accuracy : ℚ :=
        if 0 < total_questions then
          (correct_answers : ℚ) / (total_questions : ℚ) else 1/2
      { confidence_score := clamp01 (1/2 + (accuracy - 1/2) * (1/5))
        attempts := 1
        total_questions := total_questions
        correct_answers := correct_answers }

/-- One step of the per-question mode: min(1.0, score + 0.1) on a correct
answer, max(0.0, score - 0.1) on an incorrect one (main_quiz.py, lines
185-189; app_hf.py, lines 206-210). -/
def scoreStep (score : ℚ) (is_correct : Bool) : ℚ :=
  if is_correct then min 1 (score + 1/10) else max 0 (score - 1/10)

/-- Assignment progress[topic] = v on an association list, replacing the
binding of an existing key in place and appending a missing key. -/
def setScore : List (String × ℚ) → String → ℚ → List (String × ℚ)
  | [], t, v => [(t, v)]
  | (k, w) :: rest, t, v =>
      if k = t then (t, v) :: rest else (k, w) :: setScore rest t v

/-- progress["confidence_scores"].get(topic_name, 0.5). -/
def lookupScore (m : List (String × ℚ)) (t : String) : ℚ :=
  (m.lookup t).getD (1/2)

/-- update_confidence_score (main_quiz.py, lines 173-192): reads the score of
the topic with default 0.5, applies one per-question step, writes it back. -/
def update_confidence_score (m : List (String × ℚ)) (topic : String)
    (is_correct : Bool) : List (String × ℚ) :=
  setScore m topic (scoreStep (lookupScore m topic) is_correct)

/-- Loop of Python min(d, key=d.get) over the entries of a dict in iteration
order: the running best is replaced only when a later value is strictly
smaller, so the earliest minimal entry survives. -/
def selectAux : (String × ℚ) → List (String × ℚ) → (String × ℚ)
  | b, [] => b
  | b, y :: ys => selectAux (if y.2 < b.2 then y else b) ys

/-- get_next_quiz_topic (2.py, lines 98-106): the entry of the confidence map
with the lowest score, together with that score.  Python min raises ValueError
on an empty dict; the embedding returns none in that case. -/
def get_next_quiz_topic : List (String × ℚ) → Option (String × ℚ)
  | [] => none
  | x :: xs => some (selectAux x xs)

/-- get_next_quiz_topic (main_quiz.py, lines 194-204): same scan, returning
only the topic name. -/
def get_next_quiz_topic_mq (m : List (String × ℚ)) : Option String :=
  (get_next_quiz_topic m).map Prod.fst

/-- Fresh progress map: every syllabus topic at the default score 0.5
(main_quiz.py, lines 146-149 and 156-159; 2.py, lines 18-24). -/
def default_progress (syllabus : List String) : List (String × ℚ) :=
  syllabus.map fun t => (t, 1/2)

/-- Python set(a) == set(b) on topic-name lists. -/
def sameTopicSet (a b : List String) : Bool :=
  a.all (fun t => b.contains t) && b.all (fun t => a.contains t)

/-- load_student_progress (main_quiz.py, lines 127-161).  stored = none models
a missing progress file (FileNotFoundError branch).  When the file exists, the
set of stored topic keys is compared with the syllabus topic set; on any
difference the whole map is rebuilt at the default score, otherwise the stored
map is returned unchanged. -/
def load_student_progress (syllabus : List String)
    (stored : Option (List (String × ℚ))) : List (String × ℚ) :=
  match stored with
  | none => default_progress syllabus
  | some m =>
      if sameTopicSet (m.map Prod.fst) syllabus then m
      else default_progress syllabus

/-- load_student_progress (2.py, lines 11-27): an existing progress file is
returned as is; only a missing file is initialized at the default score. -/
def load_student_progress_v2 (syllabus : List String)
    (stored : Option (List (String × ℚ))) : List (String × ℚ) :=
  match stored with
  | none => default_progress syllabus
  | some m => m

/-- Python str.startswith on character lists: startsWithL s p is true when p
is an initial segment of s. -/
def startsWithL : List Char → List Char → Bool
  | _, [] => true
  | [], _ :: _ => false
  | c :: cs, d :: ds => c == d && startsWithL cs ds

/-- Scoring comparison of the app_hf.py submit handler (line 201):
answers[i].startswith(question["answer"]). -/
def hfIsCorrect (submitted answer : String) : Bool :=
  startsWithL submitted.toList answer.toList

/-- Scoring comparison of student_interface.display_quiz (lines 152-161): the
first character of the chosen option string is compared for equality with the
designated answer string; an empty choice maps to None and never matches. -/
def siIsCorrect (chosen answer : String) : Bool :=
  match chosen.toList with
  | [] => false
  | c :: _ => answer.toList == [c]

theorem clamp01_nonneg (x : ℚ) : 0 ≤ clamp01 x := le_max_left 0 _

theorem clamp01_le_one (x : ℚ) : clamp01 x ≤ 1 :=
  max_le (by norm_num) (min_le_left 1 x)

theorem le_clamp01 {s x : ℚ} (hs : s ≤ 1) (hx : s ≤ x) : s ≤ clamp01 x :=
  le_max_of_le_right (le_min hs hx)

theorem clamp01_le {s x : ℚ} (hs : 0 ≤ s) (hx : x ≤ s) : clamp01 x ≤ s :=
  max_le hs (le_trans (min_le_right 1 x) hx)

/-- Claim C1: the confidence update accumulates the lifetime counters
(tq, ca), increments attempts, computes accuracy = ca over tq after
accumulation, and moves the score by (accuracy - 0.5) * K clamped to [0, 1],
with K = 0.2 on the very first attempt of a topic (no stored record: score
0.5, no attempts) and K = 0.1 otherwise; from the default record a 3-question
quiz with 2 correct yields 8/15, which displays as 0.533, and a subsequent
all-correct 3-question quiz yields 17/30, which displays as 0.567. -/
theorem claim_c1 (prior : Option StudentProgress) (nc nt : ℕ)
    (h1 : 1 ≤ nt) (h2 : nc ≤ nt) :
    (update_student_progress prior nc nt).total_questions
        = (priorRecord prior).total_questions + nt
    ∧ (update_student_progress prior nc nt).correct_answers
        = (priorRecord prior).correct_answers + nc
    ∧ (update_student_progress prior nc nt).attempts
        = (priorRecord prior).attempts + 1
    ∧ (update_student_progress prior nc nt).confidence_score
        = clamp01 ((priorRecord prior).confidence_score
            + ((((priorRecord prior).correct_answers + nc : ℕ) : ℚ)
                / (((priorRecord prior).total_questions + nt : ℕ) : ℚ) - 1/2)
              * (if prior.isNone then 1/5 else 1/10))
    ∧ (update_student_progress none 2 3).confidence_score = 8/15
    ∧ round3 (update_student_progress none 2 3).confidence_score = 533
    ∧ (update_student_progress (some (update_student_progress none 2 3)) 3 3).confidence_score
        = 17/30
    ∧ round3 (update_student_progress (some (update_student_progress none 2 3)) 3 3).confidence_score
        = 567 := by
  have hs1 : (update_student_progress none 2 3).confidence_score = 8/15 := by
    norm_num [update_student_progress, clamp01, min_def, max_def]
  have hs2 : (update_student_progress (some (update_student_progress none 2 3)) 3 3).confidence_score
      = 17/30 := by
    have : update_student_progress none 2 3 = ⟨8/15, 1, 3, 2⟩ := by
      norm_num [update_student_progress, clamp01, min_def, max_def]
    rw [this]
    norm_num [update_student_progress, clamp01, min_def, max_def]
  refine ⟨?_, ?_, ?_, ?_, hs1, ?_, hs2, ?_⟩
  · cases prior <;> simp [update_student_progress, priorRecord]
  · cases prior <;> simp [update_student_progress, priorRecord]
  · cases prior <;> simp [update_student_progress, priorRecord]
  · cases prior with
    | none => simp [update_student_progress, priorRecord, h1, Nat.lt_of_lt_of_le Nat.zero_lt_one h1]
    | some r =>
        have hpos : 0 < r.total_questions + nt := by omega
        simp [update_student_progress, priorRecord, hpos]
  · rw [hs1, round3, Int.floor_eq_iff]
    norm_num
  · rw [hs2, round3, Int.floor_eq_iff]
    norm_num

/-- Witness for claim C1 at the default record and the 3-question quiz with 2
correct answers of the end-to-end scenario. -/
theorem claim_c1_witness :
    (update_student_progress none 2 3).confidence_score = 8/15 :=
  (claim_c1 none 2 3 (by decide) (by decide)).2.2.2.2.1

/-- Claim C2: for a prior score in [0, 1] the lifetime-accuracy update keeps
the score in [0, 1] for every outcome with at least one question, and one step
of the per-question mode keeps a score in [0, 1] inside [0, 1] as well. -/
theorem claim_c2 (prior : Option StudentProgress) (nc nt : ℕ) (h1 : 1 ≤ nt)
    (hp0 : 0 ≤ (priorRecord prior).confidence_score)
    (hp1 : (priorRecord prior).confidence_score ≤ 1)
    (s : ℚ) (b : Bool) (h0 : 0 ≤ s) (hs1 : s ≤ 1) :
    (0 ≤ (update_student_progress prior nc nt).confidence_score
      ∧ (update_student_progress prior nc nt).confidence_score ≤ 1)
    ∧ (0 ≤ scoreStep s b ∧ scoreStep s b ≤ 1) := by
  constructor
  · cases prior <;>
      exact ⟨clamp01_nonneg _, clamp01_le_one _⟩
  · cases b
    · exact ⟨le_max_left 0 _, max_le (by norm_num) (by linarith)⟩
    · exact ⟨le_min (by norm_num) (by linarith), min_le_left 1 _⟩

/-- Witness for claim C2: an all-correct 3-question quiz on a topic with no
record, and one correct per-question step from score one half. -/
theorem claim_c2_witness :
    (0 ≤ (update_student_progress none 3 3).confidence_score
      ∧ (update_student_progress none 3 3).confidence_score ≤ 1)
    ∧ (0 ≤ scoreStep (1/2) true ∧ scoreStep (1/2) true ≤ 1) :=
  claim_c2 none 3 3 (by decide) (by norm_num [priorRecord])
    (by norm_num [priorRecord]) (1/2) true (by norm_num) (by norm_num)

/-- Claim C3 counterexample: for the stored record with score 0.4, one prior
attempt, 10 lifetime questions and 0 lifetime correct answers (the state the
code itself produces from a first all-incorrect 10-question quiz), an
all-correct 1-question quiz strictly decreases the score: lifetime accuracy
becomes 1/11 < 1/2, so the adjustment is negative, refuting the claim that an
all-correct outcome never decreases the score. -/
theorem claim_c3_counterexample :
    (update_student_progress (some ⟨2/5, 1, 10, 0⟩) 1 1).confidence_score
      < (priorRecord (some ⟨2/5, 1, 10, 0⟩)).confidence_score := by
  norm_num [update_student_progress, priorRecord, clamp01, min_def, max_def]

/-- Claim C3 amended: with a prior score in [0, 1], an all-correct outcome
never decreases the score provided the prior lifetime accuracy is at least one
half (in particular on the very first attempt, when both lifetime counters are
zero), and an all-incorrect outcome never increases it provided the prior
lifetime accuracy is at most one half; without the lifetime-accuracy proviso
the code moves the score toward the lifetime accuracy, which an extreme prior
history can push against the direction of the current quiz. -/
theorem claim_c3_amended (prior : Option StudentProgress) (nt : ℕ) (h1 : 1 ≤ nt)
    (hp0 : 0 ≤ (priorRecord prior).confidence_score)
    (hp1 : (priorRecord prior).confidence_score ≤ 1) :
    ((priorRecord prior).total_questions ≤ 2 * (priorRecord prior).correct_answers →
      (priorRecord prior).confidence_score
        ≤ (update_student_progress prior nt nt).confidence_score)
    ∧ (2 * (priorRecord prior).correct_answers ≤ (priorRecord prior).total_questions →
      (update_student_progress prior 0 nt).confidence_score
        ≤ (priorRecord prior).confidence_score) := by
  cases prior with
  | none =>
      have hq : (0 : ℚ) < nt := by exact_mod_cast h1
      constructor
      · intro _
        have hacc : ((0 : ℕ) : ℚ) + (nt : ℚ) ≠ 0 := by positivity
        simp only [update_student_progress, priorRecord, h1, Nat.lt_of_lt_of_le Nat.zero_lt_one h1,
          if_pos]
        refine le_clamp01 (by norm_num) ?_
        rw [div_self (by positivity)]
        norm_num
      · intro _
        simp only [update_student_progress, priorRecord, h1, Nat.lt_of_lt_of_le Nat.zero_lt_one h1,
          if_pos]
        refine clamp01_le (by norm_num) ?_
        rw [Nat.cast_zero, zero_div]
        norm_num
  | some r =>
      have hpos : 0 < r.total_questions + nt := by omega
      have hq : (0 : ℚ) < ((r.total_questions + nt : ℕ) : ℚ) := by exact_mod_cast hpos
      constructor
      · intro hacc
        simp only [update_student_progress, priorRecord, hpos, if_pos]
        refine le_clamp01 hp1 ?_
        have haccq : (1 : ℚ)/2 ≤ ((r.correct_answers + nt : ℕ) : ℚ)
            / ((r.total_questions + nt : ℕ) : ℚ) := by
          rw [div_le_div_iff (by norm_num) hq]
          push_cast
          have : (r.total_questions : ℚ) ≤ 2 * (r.correct_answers : ℚ) := by
            exact_mod_cast hacc
          have hqnt : (1 : ℚ) ≤ (nt : ℚ) := by exact_mod_cast h1
          linarith
        nlinarith
      · intro hacc
        simp only [update_student_progress, priorRecord, hpos, if_pos]
        refine clamp01_le hp0 ?_
        have haccq : ((r.correct_answers + 0 : ℕ) : ℚ)
            / ((r.total_questions + nt : ℕ) : ℚ) ≤ (1 : ℚ)/2 := by
          rw [div_le_div_iff hq (by norm_num)]
          push_cast
          have : 2 * (r.correct_answers : ℚ) ≤ (r.total_questions : ℚ) := by
            exact_mod_cast hacc
          have hqnt : (1 : ℚ) ≤ (nt : ℚ) := by exact_mod_cast h1
          linarith
        nlinarith

/-- Witness for the amended claim C3: the very first attempt, an all-correct
1-question quiz never decreases the default score. -/
theorem claim_c3_amended_witness :
    (priorRecord none).confidence_score
      ≤ (update_student_progress none 1 1).confidence_score :=
  (claim_c3_amended none 1 (by decide) (by norm_num [priorRecord])
    (by norm_num [priorRecord])).1 (by decide)

/-- Claim C4 counterexample: a zero-question outcome is not rejected.  For the
stored record with score 0.5, one attempt, 10 lifetime questions and 0
lifetime correct answers, the update with newTotal = 0 runs to completion and
changes the record: attempts becomes 2 and the score drops to 0.45, so the
stored record is not left as it was and no InvalidOutcome error exists in the
code. -/
theorem claim_c4_counterexample :
    update_student_progress (some ⟨1/2, 1, 10, 0⟩) 0 0 ≠ (⟨1/2, 1, 10, 0⟩ : StudentProgress)
    ∧ (update_student_progress (some ⟨1/2, 1, 10, 0⟩) 0 0).attempts = 2
    ∧ (update_student_progress (some ⟨1/2, 1, 10, 0⟩) 0 0).confidence_score = 9/20 := by
  refine ⟨?_, ?_, ?_⟩ <;>
    norm_num [update_student_progress, clamp01, min_def, max_def]

/-- Claim C4 amended: a zero-question outcome is accepted, not rejected.  With
an existing record the code guards the division (accuracy falls back to 0.5
only when the lifetime total is zero), increments attempts, leaves the
lifetime counters unchanged and moves the score by (lifetime accuracy - 0.5)
times 0.1; with no record it inserts a fresh row with score 0.5, attempts 1
and zero counters. -/
theorem claim_c4_amended (r : StudentProgress) :
    update_student_progress (some r) 0 0 =
      { confidence_score := clamp01 (r.confidence_score +
          ((if 0 < r.total_questions then
              (r.correct_answers : ℚ) / (r.total_questions : ℚ) else 1/2) - 1/2) * (1/10))
        attempts := r.attempts + 1
        total_questions := r.total_questions
        correct_answers := r.correct_answers }
    ∧ update_student_progress none 0 0 = ⟨1/2, 1, 0, 0⟩ := by
  constructor
  · simp [update_student_progress]
  · norm_num [update_student_progress, clamp01, min_def, max_def]

theorem selectAux_le_init (b : String × ℚ) (l : List (String × ℚ)) :
    (selectAux b l).2 ≤ b.2 := by
  induction l generalizing b with
  | nil => simp [selectAux]
  | cons y ys ih =>
      simp only [selectAux]
      by_cases h : y.2 < b.2
      · rw [if_pos h]
        exact le_trans (ih y) (le_of_lt h)
      · rw [if_neg h]
        exact ih b

theorem selectAux_mem (b : String × ℚ) (l : List (String × ℚ)) :
    selectAux b l = b ∨ selectAux b l ∈ l := by
  induction l generalizing b with
  | nil => left; rfl
  | cons y ys ih =>
      simp only [selectAux]
      by_cases h : y.2 < b.2
      · rw [if_pos h]
        rcases ih y with h1 | h1
        · right; rw [h1]; exact List.mem_cons_self _ _
        · right; exact List.mem_cons_of_mem _ h1
      · rw [if_neg h]
        rcases ih b with h1 | h1
        · left; exact h1
        · right; exact List.mem_cons_of_mem _ h1

theorem selectAux_le (b : String × ℚ) (l : List (String × ℚ)) :
    ∀ y ∈ l, (selectAux b l).2 ≤ y.2 := by
  induction l generalizing b with
  | nil => intro y hy; cases hy
  | cons z zs ih =>
      intro y hy
      simp only [selectAux]
      rcases List.mem_cons.mp hy with rfl | hy
      · by_cases h : y.2 < b.2
        · rw [if_pos h]
          exact selectAux_le_init y zs
        · rw [if_neg h]
          exact le_trans (selectAux_le_init b zs) (le_of_not_lt h)
      · by_cases h : z.2 < b.2
        · rw [if_pos h]
          exact ih z y hy
        · rw [if_neg h]
          exact ih b y hy

theorem selectAux_first (b : String × ℚ) (l : List (String × ℚ)) :
    (b :: l).find? (fun q => decide (q.2 ≤ (selectAux b l).2)) = some (selectAux b l) := by
  induction l generalizing b with
  | nil => simp [selectAux]
  | cons y ys ih =>
      simp only [selectAux]
      by_cases h : y.2 < b.2
      · simp only [if_pos h]
        have hM : (selectAux y ys).2 ≤ y.2 := selectAux_le_init y ys
        have hb : ¬ (b.2 ≤ (selectAux y ys).2) := not_le.mpr (lt_of_le_of_lt hM h)
        rw [List.find?_cons_of_neg _ (by simpa using hb)]
        exact ih y
      · simp only [if_neg h]
        have hby : b.2 ≤ y.2 := le_of_not_lt h
        by_cases hb : b.2 ≤ (selectAux b ys).2
        · have hrb : selectAux b ys = b := by
            have h2 := ih b
            rw [List.find?_cons_of_pos _ (by simpa using hb)] at h2
            exact (Option.some.inj h2).symm
          rw [List.find?_cons_of_pos _ (by simpa using hb), hrb]
        · have hy : ¬ (y.2 ≤ (selectAux b ys).2) := fun hy => hb (le_trans hby hy)
          rw [List.find?_cons_of_neg _ (by simpa using hb),
            List.find?_cons_of_neg _ (by simpa using hy)]
          have h2 := ih b
          rw [List.find?_cons_of_neg _ (by simpa using hb)] at h2
          exact h2

/-- Claim C5: on a nonempty confidence map the scan returns an entry of the
map whose score is a minimum of all scores; the function is deterministic, and
the returned entry is precisely the first entry in iteration order whose score
attains the minimum (characterized through List.find?), so the
earlier-ordered topic wins every tie. -/
theorem claim_c5 (l : List (String × ℚ)) (h : l ≠ []) :
    ∃ p, get_next_quiz_topic l = some p
      ∧ p ∈ l
      ∧ (∀ q ∈ l, p.2 ≤ q.2)
      ∧ l.find? (fun q => decide (q.2 ≤ p.2)) = some p
      ∧ get_next_quiz_topic_mq l = some p.1 := by
  cases l with
  | nil => exact absurd rfl h
  | cons x xs =>
      refine ⟨selectAux x xs, rfl, ?_, ?_, selectAux_first x xs, rfl⟩
      · rcases selectAux_mem x xs with h1 | h1
        · rw [h1]; exact List.mem_cons_self _ _
        · exact List.mem_cons_of_mem _ h1
      · intro q hq
        rcases List.mem_cons.mp hq with h1 | h1
        · rw [h1]; exact selectAux_le_init x xs
        · exact selectAux_le x xs q h1

/-- Witness for claim C5 on a concrete map with a tie for the minimum between
the first and second topics. -/
theorem claim_c5_witness :
    ∃ p, get_next_quiz_topic [("A", (1:ℚ)/2), ("B", 1/2), ("C", 1)] = some p
      ∧ p ∈ [("A", (1:ℚ)/2), ("B", 1/2), ("C", 1)]
      ∧ (∀ q ∈ [("A", (1:ℚ)/2), ("B", 1/2), ("C", 1)], p.2 ≤ q.2)
      ∧ List.find? (fun q => decide (q.2 ≤ p.2)) [("A", (1:ℚ)/2), ("B", 1/2), ("C", 1)] = some p
      ∧ get_next_quiz_topic_mq [("A", (1:ℚ)/2), ("B", 1/2), ("C", 1)] = some p.1 :=
  claim_c5 _ (by simp)

/-- Claim C6: topic selection on an empty confidence map fails (Python min
raises ValueError, modelled as none) and produces no default topic in either
variant. -/
theorem claim_c6 :
    get_next_quiz_topic [] = none ∧ get_next_quiz_topic_mq [] = none :=
  ⟨rfl, rfl⟩

theorem default_progress_keys (syl : List String) :
    (default_progress syl).map Prod.fst = syl := by
  induction syl with
  | nil => rfl
  | cons t ts ih => simp [default_progress] at ih ⊢; exact ih

theorem sameTopicSet_refl (l : List String) : sameTopicSet l l = true := by
  simp only [sameTopicSet, Bool.and_eq_true, List.all_eq_true]
  exact ⟨fun t ht => by simpa using ht, fun t ht => by simpa using ht⟩

/-- Claim C7 counterexample: with syllabus topics A and B and a stored map
holding only topic A at the non-default score 0.9, the main_quiz loader finds
the topic sets unequal and rebuilds the whole map at the default score,
overwriting the existing record for A: the claimed non-destructive behavior
(create records only for topics with no existing record) fails. -/
theorem claim_c7_counterexample :
    load_student_progress ["A", "B"] (some [("A", 9/10)]) = [("A", 1/2), ("B", 1/2)]
    ∧ (load_student_progress ["A", "B"] (some [("A", 9/10)])).lookup "A" ≠ some (9/10) := by
  have h : load_student_progress ["A", "B"] (some [("A", 9/10)]) = [("A", 1/2), ("B", 1/2)] := by
    have hset : sameTopicSet ["A"] ["A", "B"] = false := by decide
    simp [load_student_progress, hset, default_progress]
  refine ⟨h, ?_⟩
  have hl : (([("A", (1:ℚ)/2), ("B", 1/2)] : List (String × ℚ)).lookup "A") = some (1/2) := rfl
  rw [h, hl]
  simp only [ne_eq, Option.some.injEq]
  norm_num

/-- Claim C7 amended: initialization is idempotent but not non-destructive in
the main_quiz variant.  The 2.py loader never touches an existing progress
file, so every existing record, including non-default scores, is preserved;
the main_quiz loader is idempotent (a second call on its own output changes
nothing, since the output topic set always equals the syllabus) but when the
stored topic set differs from the syllabus it overwrites existing records with
the default score rather than only creating the missing ones. -/
theorem claim_c7_amended :
    (∀ (syl : List String) (m : List (String × ℚ)),
      load_student_progress_v2 syl (some m) = m)
    ∧ (∀ (syl : List String) (st : Option (List (String × ℚ))),
      load_student_progress syl (some (load_student_progress syl st))
        = load_student_progress syl st) := by
  constructor
  · intro syl m
    rfl
  · intro syl st
    have hdef : load_student_progress syl (some (default_progress syl)) = default_progress syl := by
      simp [load_student_progress, default_progress_keys, sameTopicSet_refl]
    match st with
    | none => exact hdef
    | some m =>
        by_cases h : sameTopicSet (m.map Prod.fst) syl = true
        · simp [load_student_progress, h]
        · have hm : load_student_progress syl (some m) = default_progress syl := by
            simp [load_student_progress, h]
          rw [hm, hdef]

/-- Claim C10: the main_quiz loader preserves the stored confidence map if and
only if the stored topic-key set equals the syllabus topic set; on any
difference the whole map is rebuilt with every topic at the default score 0.5,
discarding all previously accumulated scores. -/
theorem claim_c10 (syl : List String) (m : List (String × ℚ)) :
    (sameTopicSet (m.map Prod.fst) syl = true → load_student_progress syl (some m) = m)
    ∧ (sameTopicSet (m.map Prod.fst) syl = false →
        load_student_progress syl (some m) = default_progress syl
        ∧ ∀ p ∈ load_student_progress syl (some m), p.2 = 1/2) := by
  constructor
  · intro h
    simp [load_student_progress, h]
  · intro h
    have hm : load_student_progress syl (some m) = default_progress syl := by
      simp [load_student_progress, h]
    refine ⟨hm, ?_⟩
    intro p hp
    rw [hm] at hp
    simp only [default_progress, List.mem_map] at hp
    obtain ⟨t, _, rfl⟩ := hp
    rfl

/-- Witness for claim C10: a stored map whose topic set equals the syllabus is
returned unchanged, keeping its non-default score. -/
theorem claim_c10_witness :
    load_student_progress ["A"] (some [("A", 9/10)]) = [("A", 9/10)] :=
  (claim_c10 ["A"] [("A", 9/10)]).1 (by decide)

theorem startsWithL_iff (p s : List Char) :
    startsWithL s p = true ↔ ∃ rest, s = p ++ rest := by
  induction p generalizing s with
  | nil =>
      simp [startsWithL]
  | cons d ds ih =>
      cases s with
      | nil => simp [startsWithL]
      | cons c cs =>
          simp only [startsWithL, Bool.and_eq_true, beq_iff_eq, ih, List.cons_append,
            List.cons.injEq]
          constructor
          · rintro ⟨rfl, rest, rfl⟩
            exact ⟨rest, rfl, rfl⟩
          · rintro ⟨rest, h1, h2⟩
            exact ⟨h1, rest, h2⟩

/-- Claim C8 counterexample: the app_hf submit handler scores by the
case-sensitive Python startswith, so the claimed case-insensitive matching
fails on concrete inputs: the submission that carries the option label B does
not match the designated answer given as lowercase b, and a submission that
differs from the full correct-option string only in letter case does not
match either. -/
theorem claim_c8_counterexample :
    hfIsCorrect "B) Second option" "b" = false
    ∧ hfIsCorrect "B) second option" "B) Second option" = false := by
  constructor <;> decide

/-- Claim C8 amended: in the app_hf handler a submission is scored correct
precisely when the designated correct-answer string is an initial segment of
the submitted option string, case-sensitively; hence a labeled submission
matches a bare-letter answer and a submission equal to the full correct-option
string matches, but matching is not case-insensitive, and the
student_interface variant instead compares only the first character of the
chosen option against the designated answer. -/
theorem claim_c8_amended :
    (∀ sub ans : String, hfIsCorrect sub ans = true
        ↔ ∃ rest, sub.toList = ans.toList ++ rest)
    ∧ hfIsCorrect "B) Second option" "B" = true
    ∧ hfIsCorrect "Option B" "Option B" = true
    ∧ siIsCorrect "B) Second option" "B" = true := by
  refine ⟨?_, by decide, by decide, by decide⟩
  intro sub ans
  exact startsWithL_iff ans.toList sub.toList

theorem lookupScore_setScore (m : List (String × ℚ)) (t : String) (v : ℚ) :
    lookupScore (setScore m t v) t = v := by
  induction m with
  | nil => simp [setScore, lookupScore, List.lookup]
  | cons kv rest ih =>
      obtain ⟨k, w⟩ := kv
      by_cases h : k = t
      · simp [setScore, h, lookupScore, List.lookup]
      · have hne : (t == k) = false := beq_eq_false_iff_ne.mpr (Ne.symm h)
        simp [setScore, h, lookupScore, List.lookup, hne] at ih ⊢
        exact ih

/-- Claim C9: one step of the per-question mode updates the score of the
processed topic to exactly min(1, score + 0.1) on a correct answer and
max(0, score - 0.1) on an incorrect one, and the clamp is applied at that
individual step: the stored result lies in [0, 1] whenever the prior score
does. -/
theorem claim_c9 (m : List (String × ℚ)) (t : String)
    (h0 : 0 ≤ lookupScore m t) (h1 : lookupScore m t ≤ 1) :
    lookupScore (update_confidence_score m t true) t = min 1 (lookupScore m t + 1/10)
    ∧ lookupScore (update_confidence_score m t false) t = max 0 (lookupScore m t - 1/10)
    ∧ (0 ≤ lookupScore (update_confidence_score m t true) t
        ∧ lookupScore (update_confidence_score m t true) t ≤ 1)
    ∧ (0 ≤ lookupScore (update_confidence_score m t false) t
        ∧ lookupScore (update_confidence_score m t false) t ≤ 1) := by
  have e1 : lookupScore (update_confidence_score m t true) t
      = min 1 (lookupScore m t + 1/10) := by
    rw [update_confidence_score, lookupScore_setScore]
    rfl
  have e2 : lookupScore (update_confidence_score m t false) t
      = max 0 (lookupScore m t - 1/10) := by
    rw [update_confidence_score, lookupScore_setScore]
    rfl
  refine ⟨e1, e2, ?_, ?_⟩
  · rw [e1]
    exact ⟨le_min (by norm_num) (by linarith), min_le_left _ _⟩
  · rw [e2]
    exact ⟨le_max_left _ _, max_le (by norm_num) (by linarith)⟩

/-- Witness for claim C9 on a one-topic map at the default score. -/
theorem claim_c9_witness :
    lookupScore (update_confidence_score [("A", 1/2)] "A" true) "A"
      = min 1 (lookupScore [("A", 1/2)] "A" + 1/10) :=
  (claim_c9 [("A", 1/2)] "A" (by norm_num [lookupScore, List.lookup])
    (by norm_num [lookupScore, List.lookup])).1
